import Mathlib

/-!
# Vibello upload/render orchestration — verification development

Shallow embedding of the client-side job-orchestration layer of the Vibello
frontend: the staging set, preview-handle (object URL) lifecycle, upload
result handling, render start, and the 500 ms render-status polling loop,
as implemented in `frontend/src/pages/UploadPage.jsx` and
`frontend/src/lib/api.js`.

The component is single-threaded and event-driven; we model one execution
as a list of events (user actions together with the settlement of each
asynchronous operation, chosen by the environment) folded over an explicit
component state.  React specifics that matter here are embedded faithfully:

* `useEffect(() => () => files.forEach(f => URL.revokeObjectURL(f.previewUrl)), [files])`
  runs its cleanup with the *previous* `files` array on every change of the
  `files` state, and once more on unmount; so every change of the staging
  set revokes all previews of the previous array.
* `setInterval` handles are modelled as `Interval` records carrying the
  render identifier captured by the tick closure; `clearInterval` removes
  the interval so no further ticks of it fire, but a fetch already issued
  by a past tick stays in flight and its callback still runs on arrival.
* a fetch that rejects, returns a non-2xx status, or whose body fails to
  parse as JSON makes `fetchRenderStatus` throw; the poll callback catches
  this (`PollResp.failure`).  A 2xx body that parses yields a JSON object
  whose fields may individually be absent (`PollResp.success` with
  `Option` fields).
-/

namespace Vibello

/-- Metadata of a browser `File` object: name, byte size, `lastModified`. -/
structure FileMeta where
  name : String
  size : Nat
  lastModified : Nat
deriving DecidableEq, Repr

/-- Local identifier of a staged file, from `UploadPage.jsx` `onDrop`:
the template string `${file.name}-${file.size}-${file.lastModified}`. -/
def fileKey (f : FileMeta) : String :=
  f.name ++ "-" ++ toString f.size ++ "-" ++ toString f.lastModified

/-- One entry of the staging set: `{file, previewUrl, id}` as built in
`onDrop`.  The preview handle produced by `URL.createObjectURL` is
modelled as a `Nat` drawn from a fresh-handle counter. -/
structure StagedFile where
  file : FileMeta
  previewUrl : Nat
  id : String
deriving DecidableEq, Repr

/-- Body of a successful upload response: `{job_id, saved_count, skipped_count}`. -/
structure UploadJob where
  job_id : String
  saved_count : Nat
  skipped_count : Nat
deriving DecidableEq, Repr

/-- Parsed JSON body of an upload response (`xhr.responseType = 'json'`):
an untyped object that may carry a `detail` field (error bodies) and/or
the upload-job fields (success bodies).  `xhr.response` is `none` when the
body did not parse as JSON. -/
structure UploadResp where
  detail : Option String
  job : Option UploadJob
deriving DecidableEq, Repr

/-- Settlement of the upload XHR: `onerror` (network failure) or `onload`
with an HTTP status and the parsed body. -/
inductive UploadOutcome where
  | netError
  | loaded (status : Nat) (response : Option UploadResp)
deriving DecidableEq, Repr

/-- Result of `uploadFiles` in `api.js`: resolves with the parsed body on
any 2xx status, otherwise rejects with `xhr.response?.detail` when truthy,
else `"Upload failed (status)"`; network errors reject with
`"Network error during upload."`. -/
def uploadResult : UploadOutcome → Except String (Option UploadJob)
  | .netError => .error "Network error during upload."
  | .loaded status response =>
    if 200 ≤ status ∧ status < 300 then
      .ok (response.bind (fun r => r.job))
    else
      match response.bind (fun r => r.detail) with
      | some d => if d = "" then .error ("Upload failed (" ++ toString status ++ ")") else .error d
      | none => .error ("Upload failed (" ++ toString status ++ ")")

/-- Settlement of one `fetchRenderStatus` call: `failure` when the fetch
rejected, the status was non-2xx, or the body failed to parse (all of
which throw and are caught by the poll callback); `success` carries the
parsed `{status, progress, download_url, error}` object, each field
possibly absent. -/
inductive PollResp where
  | failure
  | success (status : Option String) (progress : Option Nat)
      (download_url : Option String) (error : Option String)
deriving DecidableEq, Repr

/-- An active `setInterval` handle: its identity, the render identifier
captured by the tick closure, and the interval period in milliseconds. -/
structure Interval where
  iid : Nat
  rid : String
  periodMs : Nat
deriving DecidableEq, Repr

/-- A status fetch issued by a tick and not yet settled, tagged with the
interval that issued it and the render identifier it was issued for. -/
structure InFlightPoll where
  iid : Nat
  rid : String
deriving DecidableEq, Repr

/-- Full state of the orchestrating component: the `useState` fields of
`UploadPage`, the `pollRef` ref, plus the bookkeeping the model needs
(fresh-handle counter, log of `URL.revokeObjectURL` calls, active timers,
in-flight status fetches, fresh-interval counter). -/
structure CState where
  files : List StagedFile
  nextHandle : Nat
  revoked : List Nat
  isUploading : Bool
  uploadPct : Nat
  uploadError : String
  job : Option UploadJob
  renderId : Option String
  renderStatus : Option String
  renderPct : Nat
  renderErr : String
  downloadUrl : String
  pollRef : Option Nat
  timers : List Interval
  inflight : List InFlightPoll
  nextIid : Nat
deriving DecidableEq, Repr

/-- Initial component state. -/
def init : CState :=
  { files := [], nextHandle := 0, revoked := [], isUploading := false,
    uploadPct := 0, uploadError := "", job := none, renderId := none,
    renderStatus := none, renderPct := 0, renderErr := "", downloadUrl := "",
    pollRef := none, timers := [], inflight := [], nextIid := 0 }

/-- Events of one execution: user actions and the settlement of each
asynchronous operation (the settlement value is chosen by the
environment, modelling the backend and the network). -/
inductive Ev where
  | drop (batch : List FileMeta)
  | removeOne (id : String)
  | clearAll
  | upload (out : UploadOutcome)
  | renderOk (render_id : String) (status : Option String)
  | renderFail (msg : String)
  | tick (iid : Nat)
  | pollArrive (k : Nat) (resp : PollResp)
  | unmount
deriving DecidableEq, Repr

/-- The staged entries built by `onDrop` for one accepted batch:
`accepted.map(file => ({file, previewUrl: URL.createObjectURL(file), id: ...}))`,
with fresh preview handles starting at `h`. -/
def mkStaged : Nat → List FileMeta → List StagedFile
  | _, [] => []
  | h, f :: rest => ⟨f, h, fileKey f⟩ :: mkStaged (h + 1) rest

/-- `onDrop`: stage the batch (append, then `.slice(0, 25)`) and reset all
prior job/render results.  The change of `files` triggers the cleanup of
the previous `[files]` effect, revoking every preview of the previous
array. -/
def applyDrop (s : CState) (batch : List FileMeta) : CState :=
  { s with
    files := (s.files ++ mkStaged s.nextHandle batch).take 25,
    nextHandle := s.nextHandle + batch.length,
    job := none, renderId := none, renderStatus := none,
    downloadUrl := "", renderErr := "", uploadError := "",
    uploadPct := 0, renderPct := 0,
    revoked := s.revoked ++ s.files.map (fun f => f.previewUrl) }

/-- `removeFile(id)`: `setFiles(prev => prev.filter(f => f.id !== id))`.
No other state field is touched.  The new `files` array again triggers the
previous effect's cleanup, revoking every preview of the previous array. -/
def applyRemove (s : CState) (id : String) : CState :=
  { s with
    files := s.files.filter (fun f => f.id != id),
    revoked := s.revoked ++ s.files.map (fun f => f.previewUrl) }

/-- `clearAll`: revokes every staged preview directly, empties the staging
set and resets all job/render fields.  It does not touch `pollRef` or any
timer.  The change of `files` triggers the effect cleanup, which revokes
the previous array's previews a second time. -/
def applyClear (s : CState) : CState :=
  { s with
    revoked := s.revoked ++ s.files.map (fun f => f.previewUrl)
                 ++ s.files.map (fun f => f.previewUrl),
    files := [], job := none, renderId := none, renderStatus := none,
    downloadUrl := "", uploadError := "", renderErr := "",
    uploadPct := 0, renderPct := 0 }

/-- `handleUpload` with its settlement: guarded no-op when the staging set
is empty or an upload is in flight; otherwise resets the result fields,
then on resolution stores the job and pins progress to 100, and on
rejection surfaces `e.message || 'Upload failed'` and resets progress. -/
def applyUpload (s : CState) (out : UploadOutcome) : CState :=
  if s.files = [] ∨ s.isUploading = true then s
  else
    match uploadResult out with
    | .ok body =>
        { s with uploadPct := 100, uploadError := "", job := body,
                 renderId := none, renderStatus := none, downloadUrl := "" }
    | .error msg =>
        { s with uploadPct := 0,
                 uploadError := if msg = "" then "Upload failed" else msg,
                 job := none, renderId := none, renderStatus := none, downloadUrl := "" }

/-- Truthiness of `job?.job_id` in the `handleStartRender` guard. -/
def jobIdOk : Option UploadJob → Bool
  | none => false
  | some j => j.job_id != ""

/-- `r.status || 'queued'`: an absent or empty status string falls back to
`"queued"`. -/
def statusOrQueued : Option String → String
  | none => "queued"
  | some v => if v = "" then "queued" else v

/-- `clearInterval(pollRef.current)`: removes the interval the ref points
to (a no-op when the ref is null or the interval is already cleared). -/
def clearRef (timers : List Interval) : Option Nat → List Interval
  | some i => timers.filter (fun t => t.iid != i)
  | none => timers

/-- `handleStartRender` with `startRender` resolving to
`{render_id, status}`: guarded no-op without a job id or while the render
status is `queued`/`processing`; otherwise records the new render, clears
the interval `pollRef` currently points to, and installs a fresh 500 ms
interval whose closure captures the new render identifier. -/
def applyRenderOk (s : CState) (rid : String) (st : Option String) : CState :=
  if jobIdOk s.job = false ∨ s.renderStatus = some "processing"
      ∨ s.renderStatus = some "queued" then s
  else
    { s with
      renderErr := "", renderPct := 0,
      renderId := some rid,
      renderStatus := some (statusOrQueued st),
      timers := clearRef s.timers s.pollRef ++ [⟨s.nextIid, rid, 500⟩],
      pollRef := some s.nextIid,
      nextIid := s.nextIid + 1 }

/-- `handleStartRender` when `startRender` rejects: the catch surfaces
`e.message || 'Could not start render'`; nothing else changes. -/
def applyRenderFail (s : CState) (msg : String) : CState :=
  if jobIdOk s.job = false ∨ s.renderStatus = some "processing"
      ∨ s.renderStatus = some "queued" then s
  else
    { s with renderPct := 0,
             renderErr := if msg = "" then "Could not start render" else msg }

/-- One interval tick: if the interval is still installed, its callback
starts a `fetchRenderStatus(rid)` for the render identifier captured in
the closure; a cleared interval never ticks. -/
def applyTick (s : CState) (iid : Nat) : CState :=
  match s.timers.find? (fun t => t.iid == iid) with
  | some t => { s with inflight := s.inflight ++ [⟨t.iid, t.rid⟩] }
  | none => s

/-- `if (s.download_url) setDownloadUrl(API_URL + s.download_url)`: a
truthy download location is prefixed with the backend base address. -/
def setDl (apiUrl : String) (s : CState) : Option String → CState
  | some u => if u = "" then s else { s with downloadUrl := apiUrl ++ u }
  | none => s

/-- `if (s.error) setRenderErr(s.error)`: a truthy error field is surfaced. -/
def setErrT (s : CState) : Option String → CState
  | some e => if e = "" then s else { s with renderErr := e }
  | none => s

/-- Continuation of the poll callback once its fetch settles.  A throwing
fetch is swallowed by the catch and changes nothing.  A parsed body is
applied unconditionally: `setRenderStatus(s.status)`,
`setRenderPct(s.progress ?? 0)`, download-url prefixing when truthy; on a
terminal status the callback clears whatever interval `pollRef` currently
points to, nulls `pollRef`, and surfaces a truthy `error` field. -/
def applyPollResp (apiUrl : String) (s : CState) : PollResp → CState
  | .failure => s
  | .success st prog durl err =>
    if st = some "done" ∨ st = some "error" then
      setErrT
        { setDl apiUrl { s with renderStatus := st, renderPct := prog.getD 0 } durl with
          timers := clearRef s.timers s.pollRef, pollRef := none } err
    else
      setDl apiUrl { s with renderStatus := st, renderPct := prog.getD 0 } durl

/-- Settlement of the `k`-th in-flight status fetch (network reordering
may settle them in any order): the fetch leaves the in-flight set and its
callback continuation runs. -/
def applyPoll (apiUrl : String) (s : CState) (k : Nat) (resp : PollResp) : CState :=
  if k < s.inflight.length then
    applyPollResp apiUrl { s with inflight := s.inflight.eraseIdx k } resp
  else s

/-- Unmount: the dedicated unmount effect clears the interval `pollRef`
points to, and the `[files]` effect's final cleanup revokes the current
previews. -/
def applyUnmount (s : CState) : CState :=
  { s with timers := clearRef s.timers s.pollRef,
           revoked := s.revoked ++ s.files.map (fun f => f.previewUrl) }

/-- One event of the execution. -/
def step (apiUrl : String) (s : CState) : Ev → CState
  | .drop b => applyDrop s b
  | .removeOne id => applyRemove s id
  | .clearAll => applyClear s
  | .upload out => applyUpload s out
  | .renderOk rid st => applyRenderOk s rid st
  | .renderFail m => applyRenderFail s m
  | .tick i => applyTick s i
  | .pollArrive k r => applyPoll apiUrl s k r
  | .unmount => applyUnmount s

/-- State reached from the initial state by a list of events. -/
def runEvents (apiUrl : String) (evs : List Ev) : CState :=
  evs.foldl (step apiUrl) init

/-- Number of times preview handle `h` has been passed to
`URL.revokeObjectURL` in the execution so far. -/
def releaseCount (s : CState) (h : Nat) : Nat :=
  s.revoked.count h

/-! ## Helper characterizations -/

/-- Value taken by `downloadUrl` after the truthy-guarded assignment. -/
def dlVal (apiUrl cur : String) : Option String → String
  | some u => if u = "" then cur else apiUrl ++ u
  | none => cur

/-- Value taken by `renderErr` after the truthy-guarded assignment. -/
def errVal (cur : String) : Option String → String
  | some e => if e = "" then cur else e
  | none => cur

theorem setDl_eq (apiUrl : String) (s : CState) (d : Option String) :
    setDl apiUrl s d = { s with downloadUrl := dlVal apiUrl s.downloadUrl d } := by
  cases d with
  | none => rfl
  | some u =>
    by_cases h : u = "" <;> simp [setDl, dlVal, h]

theorem setErrT_eq (s : CState) (e : Option String) :
    setErrT s e = { s with renderErr := errVal s.renderErr e } := by
  cases e with
  | none => rfl
  | some v =>
    by_cases h : v = "" <;> simp [setErrT, errVal, h]

theorem pollResp_failure_eq (apiUrl : String) (s : CState) :
    applyPollResp apiUrl s .failure = s := rfl

theorem pollResp_success_eq (apiUrl : String) (s : CState) (st : Option String)
    (prog : Option Nat) (durl err : Option String) :
    applyPollResp apiUrl s (.success st prog durl err) =
      if st = some "done" ∨ st = some "error" then
        { s with renderStatus := st, renderPct := prog.getD 0,
                 downloadUrl := dlVal apiUrl s.downloadUrl durl,
                 timers := clearRef s.timers s.pollRef, pollRef := none,
                 renderErr := errVal s.renderErr err }
      else
        { s with renderStatus := st, renderPct := prog.getD 0,
                 downloadUrl := dlVal apiUrl s.downloadUrl durl } := by
  by_cases h : st = some "done" ∨ st = some "error"
  · rw [if_pos h]
    simp only [applyPollResp]
    rw [if_pos h, setErrT_eq, setDl_eq]
  · rw [if_neg h]
    simp only [applyPollResp]
    rw [if_neg h, setDl_eq]

theorem applyPoll_lt (apiUrl : String) (s : CState) (k : Nat) (r : PollResp)
    (h : k < s.inflight.length) :
    applyPoll apiUrl s k r = applyPollResp apiUrl { s with inflight := s.inflight.eraseIdx k } r := by
  unfold applyPoll
  rw [if_pos h]

theorem applyPoll_ge (apiUrl : String) (s : CState) (k : Nat) (r : PollResp)
    (h : ¬ k < s.inflight.length) :
    applyPoll apiUrl s k r = s := by
  unfold applyPoll
  rw [if_neg h]

/-- Generic fold-invariant principle for executions. -/
theorem foldl_inv {P : CState → Prop} (u : String)
    (hstep : ∀ s e, P s → P (step u s e)) :
    ∀ (evs : List Ev) (s : CState), P s → P (List.foldl (step u) s evs)
  | [], _, h => h
  | e :: evs, s, h => foldl_inv u hstep evs (step u s e) (hstep s e h)

theorem runEvents_append_one (u : String) (evs : List Ev) (e : Ev) :
    runEvents u (evs ++ [e]) = step u (runEvents u evs) e := by
  unfold runEvents
  rw [List.foldl_append]
  rfl

/-! ## Reachable-state invariants -/

/-- Bookkeeping invariant of every reachable state: each installed
interval is exactly the one `pollRef` points to, carries an identity
below the fresh-interval counter, and a 500 ms period; and `pollRef`
always stays below the fresh counter. -/
def TimerInv (s : CState) : Prop :=
  (∀ t ∈ s.timers, s.pollRef = some t.iid ∧ t.iid < s.nextIid ∧ t.periodMs = 500) ∧
  (∀ i, s.pollRef = some i → i < s.nextIid)

theorem timerInv_of_eq {s s' : CState} (ht : s'.timers = s.timers)
    (hp : s'.pollRef = s.pollRef) (hn : s'.nextIid = s.nextIid)
    (h : TimerInv s) : TimerInv s' := by
  obtain ⟨h1, h2⟩ := h
  constructor
  · intro t htm
    rw [ht] at htm
    rw [hp, hn]
    exact h1 t htm
  · intro i hi
    rw [hp] at hi
    rw [hn]
    exact h2 i hi

/-- When every installed interval is the one `pollRef` points to,
`clearInterval(pollRef.current)` empties the timer set. -/
theorem clearRef_eq_nil (timers : List Interval) (pr : Option Nat)
    (h : ∀ t ∈ timers, pr = some t.iid) : clearRef timers pr = [] := by
  cases pr with
  | none =>
    cases timers with
    | nil => rfl
    | cons t ts => exact absurd (h t (List.mem_cons_self t ts)) (by simp)
  | some i =>
    simp only [clearRef]
    rw [List.filter_eq_nil_iff]
    intro t htm
    have hmem := h t htm
    simp only [Option.some.injEq] at hmem
    simp [hmem]

/-- Fields `applyUpload` never touches. -/
theorem applyUpload_proj (s : CState) (out : UploadOutcome) :
    (applyUpload s out).timers = s.timers ∧ (applyUpload s out).pollRef = s.pollRef ∧
    (applyUpload s out).nextIid = s.nextIid ∧ (applyUpload s out).files = s.files ∧
    (applyUpload s out).inflight = s.inflight ∧ (applyUpload s out).revoked = s.revoked ∧
    (applyUpload s out).nextHandle = s.nextHandle := by
  unfold applyUpload
  split
  · exact ⟨rfl, rfl, rfl, rfl, rfl, rfl, rfl⟩
  · split <;> exact ⟨rfl, rfl, rfl, rfl, rfl, rfl, rfl⟩

/-- Fields `applyRenderFail` never touches. -/
theorem applyRenderFail_proj (s : CState) (m : String) :
    (applyRenderFail s m).timers = s.timers ∧ (applyRenderFail s m).pollRef = s.pollRef ∧
    (applyRenderFail s m).nextIid = s.nextIid ∧ (applyRenderFail s m).files = s.files ∧
    (applyRenderFail s m).inflight = s.inflight ∧ (applyRenderFail s m).revoked = s.revoked ∧
    (applyRenderFail s m).job = s.job ∧ (applyRenderFail s m).renderId = s.renderId := by
  unfold applyRenderFail
  split <;> exact ⟨rfl, rfl, rfl, rfl, rfl, rfl, rfl, rfl⟩

/-- Fields `applyTick` never touches. -/
theorem applyTick_proj (s : CState) (i : Nat) :
    (applyTick s i).timers = s.timers ∧ (applyTick s i).pollRef = s.pollRef ∧
    (applyTick s i).nextIid = s.nextIid ∧ (applyTick s i).files = s.files ∧
    (applyTick s i).revoked = s.revoked ∧ (applyTick s i).job = s.job ∧
    (applyTick s i).renderStatus = s.renderStatus ∧ (applyTick s i).renderPct = s.renderPct ∧
    (applyTick s i).renderErr = s.renderErr ∧ (applyTick s i).downloadUrl = s.downloadUrl ∧
    (applyTick s i).renderId = s.renderId := by
  unfold applyTick
  split <;> exact ⟨rfl, rfl, rfl, rfl, rfl, rfl, rfl, rfl, rfl, rfl, rfl⟩

/-- Fields `applyRenderOk` never touches. -/
theorem applyRenderOk_proj (s : CState) (rid : String) (st : Option String) :
    (applyRenderOk s rid st).files = s.files ∧ (applyRenderOk s rid st).inflight = s.inflight ∧
    (applyRenderOk s rid st).revoked = s.revoked ∧ (applyRenderOk s rid st).job = s.job ∧
    (applyRenderOk s rid st).nextHandle = s.nextHandle ∧
    (applyRenderOk s rid st).uploadError = s.uploadError := by
  unfold applyRenderOk
  split <;> exact ⟨rfl, rfl, rfl, rfl, rfl, rfl⟩

theorem timerInv_step (u : String) (s : CState) (e : Ev) (h : TimerInv s) :
    TimerInv (step u s e) := by
  obtain ⟨h1, h2⟩ := h
  cases e with
  | drop b => exact timerInv_of_eq rfl rfl rfl ⟨h1, h2⟩
  | removeOne id => exact timerInv_of_eq rfl rfl rfl ⟨h1, h2⟩
  | clearAll => exact timerInv_of_eq rfl rfl rfl ⟨h1, h2⟩
  | unmount =>
    constructor
    · intro t htm
      rw [show (step u s .unmount).timers = clearRef s.timers s.pollRef from rfl,
        clearRef_eq_nil s.timers s.pollRef (fun t ht => (h1 t ht).1)] at htm
      exact absurd htm (List.not_mem_nil t)
    · exact h2
  | upload out =>
    obtain ⟨ht, hp, hn, _⟩ := applyUpload_proj s out
    exact timerInv_of_eq ht hp hn ⟨h1, h2⟩
  | renderFail m =>
    obtain ⟨ht, hp, hn, _⟩ := applyRenderFail_proj s m
    exact timerInv_of_eq ht hp hn ⟨h1, h2⟩
  | tick i =>
    obtain ⟨ht, hp, hn, _⟩ := applyTick_proj s i
    exact timerInv_of_eq ht hp hn ⟨h1, h2⟩
  | renderOk rid st =>
    show TimerInv (applyRenderOk s rid st)
    unfold applyRenderOk
    split
    · exact ⟨h1, h2⟩
    · constructor
      · intro t htm
        rcases List.mem_append.mp htm with hmem | hmem
        · exfalso
          rw [clearRef_eq_nil s.timers s.pollRef (fun t ht => (h1 t ht).1)] at hmem
          exact List.not_mem_nil t hmem
        · have heq : t = ⟨s.nextIid, rid, 500⟩ := by simpa using hmem
          subst heq
          exact ⟨rfl, Nat.lt_succ_self _, rfl⟩
      · intro i hi
        have : s.nextIid = i := by simpa using hi
        subst this
        exact Nat.lt_succ_self _
  | pollArrive k r =>
    show TimerInv (applyPoll u s k r)
    by_cases hk : k < s.inflight.length
    · rw [applyPoll_lt u s k r hk]
      cases r with
      | failure => exact timerInv_of_eq rfl rfl rfl ⟨h1, h2⟩
      | success st prog durl err =>
        rw [pollResp_success_eq]
        split
        · constructor
          · intro t htm
            have htm2 : t ∈ clearRef s.timers s.pollRef := htm
            rw [clearRef_eq_nil s.timers s.pollRef (fun t ht => (h1 t ht).1)] at htm2
            exact absurd htm2 (List.not_mem_nil t)
          · intro i hi
            have hi2 : (none : Option Nat) = some i := hi
            exact absurd hi2 (by simp)
        · exact timerInv_of_eq rfl rfl rfl ⟨h1, h2⟩
    · rw [applyPoll_ge u s k r hk]
      exact ⟨h1, h2⟩

theorem timerInv_init : TimerInv init := by
  constructor
  · intro t htm
    exact absurd htm (List.not_mem_nil t)
  · intro i hi
    exact absurd hi (by simp [init])

/-- Every reachable state satisfies the timer bookkeeping invariant. -/
theorem timerInv_run (u : String) (evs : List Ev) : TimerInv (runEvents u evs) :=
  foldl_inv u (timerInv_step u) evs init timerInv_init

/-- The staging set is only ever touched by `applyPoll` through the
unchanged `files` field. -/
theorem applyPoll_files (u : String) (s : CState) (k : Nat) (r : PollResp) :
    (applyPoll u s k r).files = s.files := by
  by_cases hk : k < s.inflight.length
  · rw [applyPoll_lt u s k r hk]
    cases r with
    | failure => rfl
    | success st prog durl err =>
      rw [pollResp_success_eq]
      split <;> rfl
  · rw [applyPoll_ge u s k r hk]

/-- A settled poll whose fetch threw changes nothing but the in-flight
set: the `catch` swallows it. -/
theorem applyPoll_failure_eq (u : String) (s : CState) (k : Nat)
    (hk : k < s.inflight.length) :
    applyPoll u s k .failure = { s with inflight := s.inflight.eraseIdx k } := by
  rw [applyPoll_lt u s k _ hk]
  rfl

/-- Every member of the staging set built by `onDrop` carries the
name-size-lastModified identifier of its file. -/
theorem mkStaged_id : ∀ (h : Nat) (b : List FileMeta) (f : StagedFile),
    f ∈ mkStaged h b → f.id = fileKey f.file
  | _, [], f, hm => absurd hm (List.not_mem_nil f)
  | h, g :: rest, f, hm => by
    rcases List.mem_cons.mp hm with he | hm2
    · subst he
      rfl
    · exact mkStaged_id (h + 1) rest f hm2

/-- Identifier invariant: every staged entry's `id` is the
name-size-lastModified key of its file. -/
def IdInv (s : CState) : Prop := ∀ f ∈ s.files, f.id = fileKey f.file

theorem idInv_step (u : String) (s : CState) (e : Ev) (h : IdInv s) :
    IdInv (step u s e) := by
  cases e with
  | drop b =>
    intro f hf
    have hf2 : f ∈ s.files ++ mkStaged s.nextHandle b := List.take_subset 25 _ hf
    rcases List.mem_append.mp hf2 with hm | hm
    · exact h f hm
    · exact mkStaged_id s.nextHandle b f hm
  | removeOne id =>
    intro f hf
    exact h f (List.mem_of_mem_filter hf)
  | clearAll =>
    intro f hf
    exact absurd hf (List.not_mem_nil f)
  | upload out =>
    intro f hf
    simp only [step] at hf
    rw [(applyUpload_proj s out).2.2.2.1] at hf
    exact h f hf
  | renderOk rid st =>
    intro f hf
    simp only [step] at hf
    rw [(applyRenderOk_proj s rid st).1] at hf
    exact h f hf
  | renderFail m =>
    intro f hf
    simp only [step] at hf
    rw [(applyRenderFail_proj s m).2.2.2.1] at hf
    exact h f hf
  | tick i =>
    intro f hf
    simp only [step] at hf
    rw [(applyTick_proj s i).2.2.2.1] at hf
    exact h f hf
  | pollArrive k r =>
    intro f hf
    simp only [step] at hf
    rw [applyPoll_files u s k r] at hf
    exact h f hf
  | unmount =>
    intro f hf
    exact h f hf

/-- Every staged entry of every reachable state carries the
name-size-lastModified identifier of its file. -/
theorem idInv_run (u : String) (evs : List Ev) : IdInv (runEvents u evs) :=
  foldl_inv u (idInv_step u) evs init (fun f hf => absurd hf (List.not_mem_nil f))

/-! ## Concrete fixtures -/

/-- Default backend base address (the `VITE_API_URL` fallback in `api.js`). -/
def baseUrl : String := "http://localhost:8000"

def fileA : FileMeta := ⟨"a.jpg", 100, 1⟩

def fileB : FileMeta := ⟨"b.jpg", 200, 2⟩

/-- A 2xx upload settlement whose parsed body is the job `jid` with one
saved file. -/
def okUpload (jid : String) : Ev :=
  Ev.upload (UploadOutcome.loaded 200 (some ⟨none, some ⟨jid, 1, 0⟩⟩))

/-! ## Claims -/

/-- C4: over every execution the staging set never exceeds 25 entries, and
one `onDrop` step yields a prefix of the previous entries followed by the
freshly staged batch — insertion order preserved — whose length is the
appended length truncated at the 25-entry cap (the tail beyond the cap is
dropped). -/
theorem staging_cap_and_order (u : String) :
    (∀ evs : List Ev, (runEvents u evs).files.length ≤ 25) ∧
    (∀ (s : CState) (b : List FileMeta),
      (step u s (Ev.drop b)).files <+: s.files ++ mkStaged s.nextHandle b ∧
      (step u s (Ev.drop b)).files.length
        = min 25 (s.files ++ mkStaged s.nextHandle b).length) := by
  constructor
  · intro evs
    refine @foldl_inv (fun s => s.files.length ≤ 25) u ?_ evs init (by simp [init])
    intro s e h
    cases e with
    | drop b =>
      show ((s.files ++ mkStaged s.nextHandle b).take 25).length ≤ 25
      rw [List.length_take]
      exact min_le_left _ _
    | removeOne id =>
      show (s.files.filter (fun f => f.id != id)).length ≤ 25
      exact le_trans (List.length_filter_le _ _) h
    | clearAll =>
      show ([] : List StagedFile).length ≤ 25
      simp
    | upload out =>
      have hf : (step u s (Ev.upload out)).files = s.files := (applyUpload_proj s out).2.2.2.1
      rw [hf]
      exact h
    | renderOk rid st =>
      have hf : (step u s (Ev.renderOk rid st)).files = s.files := (applyRenderOk_proj s rid st).1
      rw [hf]
      exact h
    | renderFail m =>
      have hf : (step u s (Ev.renderFail m)).files = s.files := (applyRenderFail_proj s m).2.2.2.1
      rw [hf]
      exact h
    | tick i =>
      have hf : (step u s (Ev.tick i)).files = s.files := (applyTick_proj s i).2.2.2.1
      rw [hf]
      exact h
    | pollArrive k r =>
      have hf : (step u s (Ev.pollArrive k r)).files = s.files := applyPoll_files u s k r
      rw [hf]
      exact h
    | unmount =>
      exact h
  · intro s b
    constructor
    · exact ⟨(s.files ++ mkStaged s.nextHandle b).drop 25, List.take_append_drop 25 _⟩
    · exact List.length_take 25 _

/-- C8: a poll tick whose status fetch throws — network failure, a non-2xx
status, or a body that fails to parse — is swallowed by the catch: every
exposed field (render status, progress, error text, download location, job,
render identifier) keeps its last known value and the timer state is
untouched, so the loop continues to the next tick. -/
theorem poll_failure_swallowed (u : String) (s : CState) (k : Nat) :
    (step u s (Ev.pollArrive k PollResp.failure)).renderStatus = s.renderStatus ∧
    (step u s (Ev.pollArrive k PollResp.failure)).renderPct = s.renderPct ∧
    (step u s (Ev.pollArrive k PollResp.failure)).renderErr = s.renderErr ∧
    (step u s (Ev.pollArrive k PollResp.failure)).downloadUrl = s.downloadUrl ∧
    (step u s (Ev.pollArrive k PollResp.failure)).renderId = s.renderId ∧
    (step u s (Ev.pollArrive k PollResp.failure)).uploadError = s.uploadError ∧
    (step u s (Ev.pollArrive k PollResp.failure)).job = s.job ∧
    (step u s (Ev.pollArrive k PollResp.failure)).files = s.files ∧
    (step u s (Ev.pollArrive k PollResp.failure)).timers = s.timers ∧
    (step u s (Ev.pollArrive k PollResp.failure)).pollRef = s.pollRef := by
  have he : step u s (Ev.pollArrive k PollResp.failure) = applyPoll u s k PollResp.failure := rfl
  rw [he]
  by_cases hk : k < s.inflight.length
  · rw [applyPoll_failure_eq u s k hk]
    exact ⟨rfl, rfl, rfl, rfl, rfl, rfl, rfl, rfl, rfl, rfl⟩
  · rw [applyPoll_ge u s k _ hk]
    exact ⟨rfl, rfl, rfl, rfl, rfl, rfl, rfl, rfl, rfl, rfl⟩

/-- C2 (the code violates the exactly-once release discipline): staging a
single file allocates exactly the preview handle 0 and releases nothing,
yet clearing the set then revokes that handle twice — once in the
`clearAll` handler and once more in the `[files]` effect cleanup that runs
with the previous array. -/
theorem preview_handle_double_release :
    (runEvents baseUrl [Ev.drop [fileA]]).files.map (fun f => f.previewUrl) = [0] ∧
    releaseCount (runEvents baseUrl [Ev.drop [fileA]]) 0 = 0 ∧
    releaseCount (runEvents baseUrl [Ev.drop [fileA], Ev.clearAll]) 0 = 2 :=
  ⟨rfl, rfl, rfl⟩

/-- Execution behind the C3 counterexample: two files staged, upload and
render completed, then one file removed. -/
def removeTrace : List Ev :=
  [Ev.drop [fileA, fileB], okUpload "job-1", Ev.renderOk "r1" (some "queued"),
   Ev.tick 0,
   Ev.pollArrive 0 (PollResp.success (some "done") (some 100) (some "/dl/x.mp4") none),
   Ev.removeOne "b.jpg-200-2"]

/-- C3 is false of the code: after a completed upload and render, removing
one staged file leaves the staging set non-empty (state staged) but the
previously completed UploadJob and every RenderJob result are retained,
not discarded. -/
theorem removeFile_retains_results :
    (runEvents baseUrl removeTrace).files.length = 1 ∧
    (runEvents baseUrl removeTrace).job = some ⟨"job-1", 1, 0⟩ ∧
    (runEvents baseUrl removeTrace).renderId = some "r1" ∧
    (runEvents baseUrl removeTrace).renderStatus = some "done" ∧
    (runEvents baseUrl removeTrace).renderPct = 100 ∧
    (runEvents baseUrl removeTrace).downloadUrl = "http://localhost:8000/dl/x.mp4" :=
  ⟨rfl, rfl, rfl, rfl, rfl, rfl⟩

/-- C3 (amended): `removeFile` filters the staging set by the identifier —
so the state is staged exactly when entries remain and idle when the
filtered set is empty, with the relative order of the remaining entries
preserved — while any previously completed UploadJob and RenderJob results
are retained unchanged. -/
theorem removeFile_filters_and_retains (u : String) (s : CState) (id : String) :
    (step u s (Ev.removeOne id)).files = s.files.filter (fun f => f.id != id) ∧
    ((step u s (Ev.removeOne id)).files).Sublist s.files ∧
    (step u s (Ev.removeOne id)).job = s.job ∧
    (step u s (Ev.removeOne id)).renderId = s.renderId ∧
    (step u s (Ev.removeOne id)).renderStatus = s.renderStatus ∧
    (step u s (Ev.removeOne id)).renderPct = s.renderPct ∧
    (step u s (Ev.removeOne id)).downloadUrl = s.downloadUrl ∧
    (step u s (Ev.removeOne id)).uploadError = s.uploadError :=
  ⟨rfl, List.filter_sublist s.files, rfl, rfl, rfl, rfl, rfl, rfl⟩

/-- Rejection message of `uploadFiles` for a non-2xx `onload`. -/
theorem uploadResult_loaded_err (status : Nat) (resp : Option UploadResp)
    (hst : ¬(200 ≤ status ∧ status < 300)) :
    uploadResult (.loaded status resp) =
      .error (match resp.bind (fun r => r.detail) with
              | some d =>
                if d = "" then "Upload failed (" ++ toString status ++ ")" else d
              | none => "Upload failed (" ++ toString status ++ ")") := by
  simp only [uploadResult]
  rw [if_neg hst]
  cases resp.bind (fun r => r.detail) with
  | none => rfl
  | some d => by_cases hd : d = "" <;> simp [hd]

/-- The catch branch of `handleUpload` for a rejecting upload. -/
theorem applyUpload_err (s : CState) (out : UploadOutcome) (msg : String)
    (hg : ¬(s.files = [] ∨ s.isUploading = true))
    (hr : uploadResult out = .error msg) :
    applyUpload s out =
      { s with uploadPct := 0,
               uploadError := if msg = "" then "Upload failed" else msg,
               job := none, renderId := none, renderStatus := none,
               downloadUrl := "" } := by
  unfold applyUpload
  rw [if_neg hg, hr]

/-- C5: with a non-empty staging set and no upload in flight, every failing
upload surfaces a human-readable message and creates no UploadJob: a
network-level failure surfaces "Network error during upload.", a non-2xx
response surfaces the server detail when present and non-empty, otherwise
the generic "Upload failed (status)"; in particular HTTP 500 with body
detail "disk full" surfaces exactly "disk full" with no job. -/
theorem upload_failure_messages (u : String) (s : CState)
    (hne : s.files ≠ []) (hni : s.isUploading = false) :
    ((step u s (Ev.upload UploadOutcome.netError)).uploadError
        = "Network error during upload." ∧
      (step u s (Ev.upload UploadOutcome.netError)).job = none) ∧
    (∀ (status : Nat) (resp : Option UploadResp),
      ¬(200 ≤ status ∧ status < 300) →
      (step u s (Ev.upload (UploadOutcome.loaded status resp))).job = none ∧
      (∀ d, resp.bind (fun r => r.detail) = some d → d ≠ "" →
        (step u s (Ev.upload (UploadOutcome.loaded status resp))).uploadError = d) ∧
      (resp.bind (fun r => r.detail) = none →
        (step u s (Ev.upload (UploadOutcome.loaded status resp))).uploadError
          = "Upload failed (" ++ toString status ++ ")")) ∧
    ((step u s (Ev.upload (UploadOutcome.loaded 500
        (some ⟨some "disk full", none⟩)))).uploadError = "disk full" ∧
      (step u s (Ev.upload (UploadOutcome.loaded 500
        (some ⟨some "disk full", none⟩)))).job = none) := by
  have hg : ¬(s.files = [] ∨ s.isUploading = true) := by
    rintro (hc | hc)
    · exact hne hc
    · rw [hni] at hc
      exact Bool.false_ne_true hc
  have h500 : ¬(200 ≤ (500 : Nat) ∧ (500 : Nat) < 300) := by decide
  refine ⟨?_, ?_, ?_⟩
  · have he : step u s (Ev.upload UploadOutcome.netError)
        = applyUpload s UploadOutcome.netError := rfl
    rw [he, applyUpload_err s UploadOutcome.netError "Network error during upload." hg rfl]
    exact ⟨by simp, rfl⟩
  · intro status resp hst
    have he : step u s (Ev.upload (UploadOutcome.loaded status resp))
        = applyUpload s (UploadOutcome.loaded status resp) := rfl
    rw [he, applyUpload_err s _ _ hg (uploadResult_loaded_err status resp hst)]
    refine ⟨rfl, ?_, ?_⟩
    · intro d hd hdne
      rw [hd]
      simp [hdne]
    · intro hd
      rw [hd]
      have hne2 : ("Upload failed (" ++ toString status ++ ")") ≠ "" := by
        intro hcon
        have hlen : ("Upload failed (" ++ toString status ++ ")").length = 0 := by
          rw [hcon]
          rfl
        rw [String.length_append, String.length_append] at hlen
        have h1 : ("Upload failed (" : String).length = 15 := rfl
        have h2 : (")" : String).length = 1 := rfl
        omega
      simp [hne2]
  · have he : step u s (Ev.upload (UploadOutcome.loaded 500
        (some ⟨some "disk full", none⟩)))
        = applyUpload s (UploadOutcome.loaded 500 (some ⟨some "disk full", none⟩)) := rfl
    rw [he, applyUpload_err s _ "disk full" hg
      (uploadResult_loaded_err 500 (some ⟨some "disk full", none⟩) h500)]
    exact ⟨by simp, rfl⟩

/-- C5 witness: at the reachable state with one staged file and no upload
in flight, the HTTP 500 "disk full" failure surfaces exactly "disk full"
and leaves no UploadJob. -/
theorem upload_failure_messages_witness :
    (runEvents baseUrl [Ev.drop [fileA]]).files ≠ [] ∧
    (step baseUrl (runEvents baseUrl [Ev.drop [fileA]])
      (Ev.upload (UploadOutcome.loaded 500
        (some ⟨some "disk full", none⟩)))).uploadError = "disk full" ∧
    (step baseUrl (runEvents baseUrl [Ev.drop [fileA]])
      (Ev.upload (UploadOutcome.loaded 500
        (some ⟨some "disk full", none⟩)))).job = none :=
  ⟨by decide,
   (upload_failure_messages baseUrl (runEvents baseUrl [Ev.drop [fileA]])
     (by decide) (by decide)).2.2.1,
   (upload_failure_messages baseUrl (runEvents baseUrl [Ev.drop [fileA]])
     (by decide) (by decide)).2.2.2⟩

/-- C10: staged entries whose files share name, size and modification time
share one identifier, so a single removeFile call with that identifier
removes every such entry at once, and the surviving entries keep their
relative order (the result is a sublist of the previous staging set). -/
theorem duplicate_metadata_removed_together (u : String) (evs : List Ev)
    (f g : StagedFile)
    (hf : f ∈ (runEvents u evs).files) (hg : g ∈ (runEvents u evs).files)
    (hmeta : f.file = g.file) :
    f.id = g.id ∧
    f ∉ (step u (runEvents u evs) (Ev.removeOne f.id)).files ∧
    g ∉ (step u (runEvents u evs) (Ev.removeOne f.id)).files ∧
    ((step u (runEvents u evs) (Ev.removeOne f.id)).files).Sublist
      (runEvents u evs).files := by
  have hfid := idInv_run u evs f hf
  have hgid := idInv_run u evs g hg
  have hid : f.id = g.id := by rw [hfid, hgid, hmeta]
  refine ⟨hid, ?_, ?_, List.filter_sublist _⟩
  · intro hmem
    have hmem2 : f ∈ (runEvents u evs).files.filter (fun x => x.id != f.id) := hmem
    have hb := (List.mem_filter.mp hmem2).2
    simp at hb
  · intro hmem
    have hmem2 : g ∈ (runEvents u evs).files.filter (fun x => x.id != f.id) := hmem
    have hb := (List.mem_filter.mp hmem2).2
    rw [hid] at hb
    simp at hb

/-- C10 witness: dropping the same file metadata twice stages two entries
with one identifier, and the single removeFile call removes both. -/
theorem duplicate_metadata_removed_together_witness :
    (⟨fileA, 0, fileKey fileA⟩ : StagedFile)
        ∈ (runEvents baseUrl [Ev.drop [fileA, fileA]]).files ∧
    (⟨fileA, 1, fileKey fileA⟩ : StagedFile)
        ∈ (runEvents baseUrl [Ev.drop [fileA, fileA]]).files ∧
    (⟨fileA, 0, fileKey fileA⟩ : StagedFile)
        ∉ (step baseUrl (runEvents baseUrl [Ev.drop [fileA, fileA]])
            (Ev.removeOne (fileKey fileA))).files ∧
    (⟨fileA, 1, fileKey fileA⟩ : StagedFile)
        ∉ (step baseUrl (runEvents baseUrl [Ev.drop [fileA, fileA]])
            (Ev.removeOne (fileKey fileA))).files := by
  have h := duplicate_metadata_removed_together baseUrl [Ev.drop [fileA, fileA]]
    ⟨fileA, 0, fileKey fileA⟩ ⟨fileA, 1, fileKey fileA⟩ (by decide) (by decide) rfl
  exact ⟨by decide, by decide, h.2.1, h.2.2.1⟩

/-- Execution behind the C9 example: one render with the poll sequence
queued(0), processing(40), processing(90), done(100, /dl/x.mp4). -/
def renderDemoTrace : List Ev :=
  [Ev.drop [fileA], okUpload "job-1", Ev.renderOk "r1" (some "queued"),
   Ev.tick 0, Ev.pollArrive 0 (PollResp.success (some "queued") (some 0) none none),
   Ev.tick 0, Ev.pollArrive 0 (PollResp.success (some "processing") (some 40) none none),
   Ev.tick 0, Ev.pollArrive 0 (PollResp.success (some "processing") (some 90) none none),
   Ev.tick 0, Ev.pollArrive 0
     (PollResp.success (some "done") (some 100) (some "/dl/x.mp4") none)]

/-- C9: whenever a settled poll carries a non-empty download location, the
exposed download location becomes the backend base address prefixed to the
returned relative path; and the example sequence queued(0), processing(40),
processing(90), done(100, /dl/x.mp4) ends with status done, progress 100
and a fully-qualified location ending in /dl/x.mp4. -/
theorem download_url_prefixed (u : String) (s : CState) (k : Nat)
    (st : Option String) (prog : Option Nat) (err : Option String) (durl : String)
    (hk : k < s.inflight.length) (hd : durl ≠ "") :
    (step u s (Ev.pollArrive k (PollResp.success st prog (some durl) err))).downloadUrl
      = u ++ durl ∧
    (runEvents baseUrl renderDemoTrace).renderStatus = some "done" ∧
    (runEvents baseUrl renderDemoTrace).renderPct = 100 ∧
    (runEvents baseUrl renderDemoTrace).downloadUrl = baseUrl ++ "/dl/x.mp4" ∧
    "/dl/x.mp4".data <:+ (runEvents baseUrl renderDemoTrace).downloadUrl.data := by
  refine ⟨?_, rfl, rfl, rfl, ⟨baseUrl.data, by decide⟩⟩
  have he : step u s (Ev.pollArrive k (PollResp.success st prog (some durl) err))
      = applyPoll u s k (PollResp.success st prog (some durl) err) := rfl
  rw [he, applyPoll_lt u s k _ hk, pollResp_success_eq]
  split
  · show dlVal u s.downloadUrl (some durl) = u ++ durl
    simp only [dlVal]
    rw [if_neg hd]
  · show dlVal u s.downloadUrl (some durl) = u ++ durl
    simp only [dlVal]
    rw [if_neg hd]

/-- Execution behind the C9 witness: a render with one status fetch in
flight. -/
def pollWitnessTrace : List Ev :=
  [Ev.drop [fileB], okUpload "job-7", Ev.renderOk "r7" (some "queued"), Ev.tick 0]

/-- C9 witness: at a reachable state with one fetch in flight, a settled
poll carrying /dl/w.mp4 exposes the base address prefixed to it. -/
theorem download_url_prefixed_witness :
    0 < (runEvents baseUrl pollWitnessTrace).inflight.length ∧
    (step baseUrl (runEvents baseUrl pollWitnessTrace)
      (Ev.pollArrive 0 (PollResp.success (some "processing") (some 50)
        (some "/dl/w.mp4") none))).downloadUrl = baseUrl ++ "/dl/w.mp4" :=
  ⟨by decide,
   (download_url_prefixed baseUrl (runEvents baseUrl pollWitnessTrace) 0
     (some "processing") (some 50) none "/dl/w.mp4" (by decide) (by decide)).1⟩

/-- C7: every installed poll interval has the fixed 500 ms period, and the
loop stops exactly on a successful terminal poll: a settled successful poll
with status done or error empties the timer set and clears pollRef; a
successful non-terminal poll and a throwing poll leave the timer state
untouched; and once no timer is installed, a tick issues no further status
fetch. -/
theorem poll_cadence_and_termination (u : String) (evs : List Ev) :
    (∀ t ∈ (runEvents u evs).timers, t.periodMs = 500) ∧
    (∀ (k : Nat) (st : Option String) (prog : Option Nat) (durl err : Option String),
      k < (runEvents u evs).inflight.length →
      st = some "done" ∨ st = some "error" →
      (step u (runEvents u evs)
        (Ev.pollArrive k (PollResp.success st prog durl err))).timers = [] ∧
      (step u (runEvents u evs)
        (Ev.pollArrive k (PollResp.success st prog durl err))).pollRef = none) ∧
    (∀ (k : Nat) (st : Option String) (prog : Option Nat) (durl err : Option String),
      ¬(st = some "done" ∨ st = some "error") →
      (step u (runEvents u evs)
        (Ev.pollArrive k (PollResp.success st prog durl err))).timers
        = (runEvents u evs).timers ∧
      (step u (runEvents u evs)
        (Ev.pollArrive k (PollResp.success st prog durl err))).pollRef
        = (runEvents u evs).pollRef) ∧
    (∀ k : Nat,
      (step u (runEvents u evs) (Ev.pollArrive k PollResp.failure)).timers
        = (runEvents u evs).timers ∧
      (step u (runEvents u evs) (Ev.pollArrive k PollResp.failure)).pollRef
        = (runEvents u evs).pollRef) ∧
    ((runEvents u evs).timers = [] →
      ∀ i, (step u (runEvents u evs) (Ev.tick i)).inflight
        = (runEvents u evs).inflight) := by
  have hInv := timerInv_run u evs
  refine ⟨fun t ht => (hInv.1 t ht).2.2, ?_, ?_, ?_, ?_⟩
  · intro k st prog durl err hk hterm
    have he : step u (runEvents u evs) (Ev.pollArrive k (PollResp.success st prog durl err))
        = applyPoll u (runEvents u evs) k (PollResp.success st prog durl err) := rfl
    rw [he, applyPoll_lt _ _ _ _ hk, pollResp_success_eq, if_pos hterm]
    constructor
    · show clearRef (runEvents u evs).timers (runEvents u evs).pollRef = []
      exact clearRef_eq_nil _ _ (fun t ht => (hInv.1 t ht).1)
    · rfl
  · intro k st prog durl err hterm
    have he : step u (runEvents u evs) (Ev.pollArrive k (PollResp.success st prog durl err))
        = applyPoll u (runEvents u evs) k (PollResp.success st prog durl err) := rfl
    rw [he]
    by_cases hk : k < (runEvents u evs).inflight.length
    · rw [applyPoll_lt _ _ _ _ hk, pollResp_success_eq, if_neg hterm]
      exact ⟨rfl, rfl⟩
    · rw [applyPoll_ge _ _ _ _ hk]
      exact ⟨rfl, rfl⟩
  · intro k
    have he : step u (runEvents u evs) (Ev.pollArrive k PollResp.failure)
        = applyPoll u (runEvents u evs) k PollResp.failure := rfl
    rw [he]
    by_cases hk : k < (runEvents u evs).inflight.length
    · rw [applyPoll_failure_eq _ _ _ hk]
      exact ⟨rfl, rfl⟩
    · rw [applyPoll_ge _ _ _ _ hk]
      exact ⟨rfl, rfl⟩
  · intro htimers i
    have he : step u (runEvents u evs) (Ev.tick i) = applyTick (runEvents u evs) i := rfl
    rw [he]
    unfold applyTick
    rw [htimers]
    rfl

/-- Execution behind the C7 witness: a render with one status fetch in
flight. -/
def cadenceWitnessTrace : List Ev :=
  [Ev.drop [fileA], okUpload "job-3", Ev.renderOk "r3" (some "queued"), Ev.tick 0]

/-- C7 witness: at a reachable state with one fetch in flight, a settled
successful poll with terminal status done empties the timer set and clears
pollRef. -/
theorem poll_cadence_and_termination_witness :
    0 < (runEvents baseUrl cadenceWitnessTrace).inflight.length ∧
    (step baseUrl (runEvents baseUrl cadenceWitnessTrace)
      (Ev.pollArrive 0 (PollResp.success (some "done") (some 100) none none))).timers = [] ∧
    (step baseUrl (runEvents baseUrl cadenceWitnessTrace)
      (Ev.pollArrive 0 (PollResp.success (some "done") (some 100) none none))).pollRef
      = none := by
  have h := (poll_cadence_and_termination baseUrl cadenceWitnessTrace).2.1 0 (some "done")
    (some 100) none none (by decide) (Or.inl rfl)
  exact ⟨by decide, h.1, h.2⟩

/-- Execution behind the C1 counterexample: while the first render's status
fetch is still in flight, dropping another file resets the render status,
a second upload and render supersede the first, and only then does the
stale fetch settle. -/
def staleTrace : List Ev :=
  [Ev.drop [fileA], okUpload "job-1", Ev.renderOk "r1" (some "queued"),
   Ev.tick 0, Ev.drop [fileB], okUpload "job-2", Ev.renderOk "r2" (some "queued")]

/-- C1 is false of the code: after the second render starts, the status
fetch issued for the superseded identifier r1 is still in flight, and when
it settles its payload (processing, 40) is applied to the exposed render
status and progress even though the active render identifier is r2. -/
theorem stale_poll_applied :
    (runEvents baseUrl staleTrace).renderId = some "r2" ∧
    (runEvents baseUrl staleTrace).inflight = [⟨0, "r1"⟩] ∧
    (runEvents baseUrl staleTrace).renderStatus = some "queued" ∧
    (runEvents baseUrl staleTrace).renderPct = 0 ∧
    (runEvents baseUrl (staleTrace
      ++ [Ev.pollArrive 0 (PollResp.success (some "processing") (some 40) none none)])).renderId
      = some "r2" ∧
    (runEvents baseUrl (staleTrace
      ++ [Ev.pollArrive 0 (PollResp.success (some "processing") (some 40) none none)])).renderStatus
      = some "processing" ∧
    (runEvents baseUrl (staleTrace
      ++ [Ev.pollArrive 0 (PollResp.success (some "processing") (some 40) none none)])).renderPct
      = 40 :=
  ⟨rfl, rfl, rfl, rfl, rfl, rfl, rfl⟩

/-- C1 (amended): starting a new render clears the superseded interval, so
no new status fetch is ever issued for the old render — every installed
interval differs from the cleared one and its ticks add nothing — but the
set of fetches already in flight is left exactly as it was: a stale fetch
is neither cancelled nor discarded, and its response is still applied on
arrival, as the counterexample records. -/
theorem supersession_blocks_new_polls (u : String) (evs : List Ev)
    (rid : String) (st : Option String) (i : Nat)
    (hpr : (runEvents u evs).pollRef = some i)
    (hjob : jobIdOk (runEvents u evs).job = true)
    (hq : (runEvents u evs).renderStatus ≠ some "queued")
    (hp : (runEvents u evs).renderStatus ≠ some "processing") :
    (∀ t ∈ (step u (runEvents u evs) (Ev.renderOk rid st)).timers, t.iid ≠ i) ∧
    (step u (step u (runEvents u evs) (Ev.renderOk rid st)) (Ev.tick i)).inflight
      = (step u (runEvents u evs) (Ev.renderOk rid st)).inflight ∧
    (step u (runEvents u evs) (Ev.renderOk rid st)).inflight
      = (runEvents u evs).inflight := by
  have hInv := timerInv_run u evs
  have hlt : i < (runEvents u evs).nextIid := hInv.2 i hpr
  have hg : ¬(jobIdOk (runEvents u evs).job = false
      ∨ (runEvents u evs).renderStatus = some "processing"
      ∨ (runEvents u evs).renderStatus = some "queued") := by
    rintro (hc | hc | hc)
    · rw [hjob] at hc
      exact Bool.noConfusion hc
    · exact hp hc
    · exact hq hc
  have he : step u (runEvents u evs) (Ev.renderOk rid st)
      = applyRenderOk (runEvents u evs) rid st := rfl
  have htimers : (step u (runEvents u evs) (Ev.renderOk rid st)).timers
      = clearRef (runEvents u evs).timers (runEvents u evs).pollRef
        ++ [⟨(runEvents u evs).nextIid, rid, 500⟩] := by
    rw [he]
    unfold applyRenderOk
    rw [if_neg hg]
  have hmem : ∀ t ∈ (step u (runEvents u evs) (Ev.renderOk rid st)).timers, t.iid ≠ i := by
    intro t ht
    rw [htimers] at ht
    rcases List.mem_append.mp ht with hm | hm
    · rw [hpr] at hm
      simp only [clearRef] at hm
      have hb := (List.mem_filter.mp hm).2
      simpa using hb
    · have heq : t = ⟨(runEvents u evs).nextIid, rid, 500⟩ := by simpa using hm
      subst heq
      exact (Nat.ne_of_lt hlt).symm
  refine ⟨hmem, ?_, ?_⟩
  · have hfind : List.find? (fun t => t.iid == i)
        (step u (runEvents u evs) (Ev.renderOk rid st)).timers = none := by
      rw [List.find?_eq_none]
      intro t ht
      simp only [beq_iff_eq]
      exact hmem t ht
    have he2 : step u (step u (runEvents u evs) (Ev.renderOk rid st)) (Ev.tick i)
        = applyTick (step u (runEvents u evs) (Ev.renderOk rid st)) i := rfl
    rw [he2]
    unfold applyTick
    rw [hfind]
  · rw [he]
    exact (applyRenderOk_proj (runEvents u evs) rid st).2.1

/-- Execution behind the C1 amended-claim witness: the first render's fetch
is in flight, and a later drop plus upload leave the state ready for a
superseding render. -/
def supersedeTrace : List Ev :=
  [Ev.drop [fileA], okUpload "job-1", Ev.renderOk "r1" (some "queued"),
   Ev.tick 0, Ev.drop [fileB], okUpload "job-2"]

/-- C1 amended-claim witness: at the reachable state with the first
render's interval installed, starting a second render leaves the in-flight
set unchanged and a tick of the old interval issues nothing. -/
theorem supersession_blocks_new_polls_witness :
    (runEvents baseUrl supersedeTrace).pollRef = some 0 ∧
    (step baseUrl (step baseUrl (runEvents baseUrl supersedeTrace)
      (Ev.renderOk "r2" (some "queued"))) (Ev.tick 0)).inflight
      = (step baseUrl (runEvents baseUrl supersedeTrace)
          (Ev.renderOk "r2" (some "queued"))).inflight ∧
    (step baseUrl (runEvents baseUrl supersedeTrace)
      (Ev.renderOk "r2" (some "queued"))).inflight
      = (runEvents baseUrl supersedeTrace).inflight := by
  have h := supersession_blocks_new_polls baseUrl supersedeTrace "r2" (some "queued") 0
    rfl (by decide) (by decide) (by decide)
  exact ⟨rfl, h.2.1, h.2.2⟩

/-- Execution behind the C6 counterexample: a parseable poll body with no
status field leaves the loop running while clearing the exposed status
(which also re-enables the UI clear control), then the user clears. -/
def clearTrace : List Ev :=
  [Ev.drop [fileA], okUpload "job-1", Ev.renderOk "r1" (some "queued"),
   Ev.tick 0, Ev.pollArrive 0 (PollResp.success none none none none)]

/-- C6 is false of the code: clearAll resets the exposed state but does not
cancel the in-flight poll loop — the 500 ms interval stays installed,
pollRef still points at it, and the next tick issues a further status
fetch after the clear. -/
theorem clear_keeps_poll_loop :
    (runEvents baseUrl (clearTrace ++ [Ev.clearAll])).files = [] ∧
    (runEvents baseUrl (clearTrace ++ [Ev.clearAll])).renderStatus = none ∧
    (runEvents baseUrl (clearTrace ++ [Ev.clearAll])).timers = [⟨0, "r1", 500⟩] ∧
    (runEvents baseUrl (clearTrace ++ [Ev.clearAll])).pollRef = some 0 ∧
    (runEvents baseUrl (clearTrace ++ [Ev.clearAll, Ev.tick 0])).inflight = [⟨0, "r1"⟩] :=
  ⟨rfl, rfl, rfl, rfl, rfl⟩

/-- C6 (amended): the explicit clear action returns every exposed field to
the idle configuration and revokes all staged preview handles (the handler
revokes them and the files-effect cleanup revokes them again), but leaves
the poll timer and pollRef untouched; the poll loop's timer is instead
stopped by component teardown, after which a tick issues no further status
fetch. -/
theorem clear_resets_unmount_stops (u : String) (evs : List Ev) :
    (step u (runEvents u evs) Ev.clearAll).files = [] ∧
    (step u (runEvents u evs) Ev.clearAll).job = none ∧
    (step u (runEvents u evs) Ev.clearAll).renderId = none ∧
    (step u (runEvents u evs) Ev.clearAll).renderStatus = none ∧
    (step u (runEvents u evs) Ev.clearAll).downloadUrl = "" ∧
    (step u (runEvents u evs) Ev.clearAll).uploadError = "" ∧
    (step u (runEvents u evs) Ev.clearAll).renderErr = "" ∧
    (step u (runEvents u evs) Ev.clearAll).revoked
      = (runEvents u evs).revoked
        ++ (runEvents u evs).files.map (fun f => f.previewUrl)
        ++ (runEvents u evs).files.map (fun f => f.previewUrl) ∧
    (step u (runEvents u evs) Ev.clearAll).timers = (runEvents u evs).timers ∧
    (step u (runEvents u evs) Ev.clearAll).pollRef = (runEvents u evs).pollRef ∧
    (step u (runEvents u evs) Ev.unmount).timers = [] ∧
    (∀ i, (step u (step u (runEvents u evs) Ev.unmount) (Ev.tick i)).inflight
      = (step u (runEvents u evs) Ev.unmount).inflight) := by
  have hInv := timerInv_run u evs
  have hnil : clearRef (runEvents u evs).timers (runEvents u evs).pollRef = [] :=
    clearRef_eq_nil _ _ (fun t ht => (hInv.1 t ht).1)
  have hun : (step u (runEvents u evs) Ev.unmount).timers = [] := hnil
  refine ⟨rfl, rfl, rfl, rfl, rfl, rfl, rfl, ?_, rfl, rfl, hun, ?_⟩
  · show (runEvents u evs).revoked
        ++ (runEvents u evs).files.map (fun f => f.previewUrl)
        ++ (runEvents u evs).files.map (fun f => f.previewUrl) = _
    rw [List.append_assoc]
  · intro i
    have he : step u (step u (runEvents u evs) Ev.unmount) (Ev.tick i)
        = applyTick (step u (runEvents u evs) Ev.unmount) i := rfl
    rw [he]
    unfold applyTick
    rw [hun]
    rfl

end Vibello
